import Mathlib

/-!
Shallow embedding of the QR-code generator app (src/src/App.tsx): the payload
encoder `generateQRContent`, the input validator `validateInput`, and the
submit / type-selection state transitions, together with theorems checking the
specification's claims about them.

Strings are modelled by Lean `String` (a packed `List Char`); JavaScript string
operations used by the source (`startsWith`, `includes`, `replace` with the
regexes `/\s+/g` and `/[\s-()]/g`, `encodeURIComponent`, truthiness of a
string) are modelled by explicit executable functions below.
-/

namespace QRApp

/-- The characters matched by the JavaScript regex class `\s`
(ECMAScript WhiteSpace and LineTerminator code points). -/
def isJsWhitespace (c : Char) : Bool :=
  c == ' ' || c == Char.ofNat 9 || c == Char.ofNat 10 || c == Char.ofNat 11 ||
  c == Char.ofNat 12 || c == Char.ofNat 13 || c == Char.ofNat 0xA0 ||
  c == Char.ofNat 0x1680 || (0x2000 ≤ c.toNat && c.toNat ≤ 0x200A) ||
  c == Char.ofNat 0x2028 || c == Char.ofNat 0x2029 || c == Char.ofNat 0x202F ||
  c == Char.ofNat 0x205F || c == Char.ofNat 0x3000 || c == Char.ofNat 0xFEFF

/-- `isLeadOf p l` decides whether the list `p` is a leading segment of `l`
(the Boolean prefix test, used to model JavaScript `String.startsWith`). -/
def isLeadOf : List Char → List Char → Bool
  | [], _ => true
  | _ :: _, [] => false
  | a :: as, b :: bs => a == b && isLeadOf as bs

/-- Model of JavaScript `s.startsWith(p)`. -/
def jsStartsWith (s p : String) : Bool := isLeadOf p.data s.data

/-- Model of JavaScript `s.replace(/\s+/g, '')`: removing every maximal run of
whitespace removes exactly the whitespace characters. -/
def stripJsWs (s : String) : String :=
  ⟨s.data.filter (fun c => !(isJsWhitespace c))⟩

/-- Model of JavaScript `s.replace(/[\s-()]/g, '')`: removes whitespace,
hyphens and parentheses. -/
def stripSeparators (s : String) : String :=
  ⟨s.data.filter (fun c => !(isJsWhitespace c || c == '-' || c == '(' || c == ')'))⟩

/-- The characters `encodeURIComponent` leaves unescaped:
ASCII letters, digits, and `- _ . ! ~ * ' ( )`. -/
def isUriUnreserved (c : Char) : Bool :=
  c.isAlpha || c.isDigit || c == '-' || c == '_' || c == '.' || c == '!' ||
  c == '~' || c == '*' || c == Char.ofNat 39 || c == '(' || c == ')'

/-- The UTF-8 bytes of the code point `n` (as used by `encodeURIComponent`
when percent-escaping a character). -/
def utf8Bytes (n : Nat) : List Nat :=
  if n < 0x80 then [n]
  else if n < 0x800 then [0xC0 + n / 64, 0x80 + n % 64]
  else if n < 0x10000 then [0xE0 + n / 4096, 0x80 + n / 64 % 64, 0x80 + n % 64]
  else [0xF0 + n / 262144, 0x80 + n / 4096 % 64, 0x80 + n / 64 % 64, 0x80 + n % 64]

/-- The upper-case hexadecimal digit for `n < 16`. -/
def hexDigitChar (n : Nat) : Char :=
  if n < 10 then Char.ofNat (48 + n) else Char.ofNat (55 + n)

/-- The three characters `%XY` escaping the byte `b`. -/
def percentByte (b : Nat) : List Char :=
  ['%', hexDigitChar (b / 16), hexDigitChar (b % 16)]

/-- How `encodeURIComponent` renders one character: unreserved characters pass
through, every other character becomes the percent-escapes of its UTF-8 bytes. -/
def uriEncodeChar (c : Char) : List Char :=
  if isUriUnreserved c then [c] else ((utf8Bytes c.toNat).map percentByte).flatten

/-- Model of JavaScript `encodeURIComponent`. -/
def encodeURIComponent (s : String) : String :=
  ⟨(s.data.map uriEncodeChar).flatten⟩

/-- `occCount p l` counts the positions of `l` at which the pattern `p`
occurs, i.e. the suffixes of `l` that begin with `p` (used to state the
spec's "the fixed literal is present exactly once" property). -/
def occCount (p : List Char) : List Char → Nat
  | [] => 0
  | c :: rest => (if isLeadOf p (c :: rest) then 1 else 0) + occCount p rest

/-- Occurrence count at the `String` level. -/
def occS (pat s : String) : Nat := occCount pat.data s.data

/-- The five supported QR content types (`type QRType` in the source). -/
inductive QRType
  | url
  | text
  | email
  | wifi
  | phone
deriving DecidableEq, Repr

/-- The form-data record (`interface FormData`).  Every field of the source is
an optional string (or boolean for `hidden`); since the source reads every
field through JavaScript `||` with a `''`/`false` default, an absent field is
indistinguishable from the default, and we model the fields as total with
those defaults. -/
structure FormData where
  url : String := ""
  text : String := ""
  email : String := ""
  emailSubject : String := ""
  emailBody : String := ""
  ssid : String := ""
  password : String := ""
  hidden : Bool := false
  phone : String := ""
deriving DecidableEq, Repr

/-- The payload encoder `generateQRContent`.  The selected type is an
`Option QRType`: `none` models the unset selection `''` (and lands in the
source's `default` switch branch, which returns the empty string). -/
def generateQRContent : Option QRType → FormData → String
  | some .wifi, d =>
      "WIFI:T:WPA;S:" ++ d.ssid ++ ";P:" ++ d.password ++ ";H:" ++
        (if d.hidden then "true" else "false") ++ ";;"
  | some .email, d =>
      let subject := encodeURIComponent d.emailSubject
      let body := encodeURIComponent d.emailBody
      "mailto:" ++ d.email ++
        (if subject = "" ∧ body = "" then ""
         else "?" ++ (if subject = "" then "" else "subject=" ++ subject) ++
           (if body = "" then ""
            else (if subject = "" then "" else "&") ++ "body=" ++ body))
  | some .phone, d => "tel:" ++ stripJsWs d.phone
  | some .url, d =>
      if ¬ d.url = "" ∧ jsStartsWith d.url "http://" = false ∧
          jsStartsWith d.url "https://" = false
      then "https://" ++ d.url
      else d.url
  | some .text, d => d.text
  | none, _ => ""

/-- The input validator `validateInput`.  `none` models the unset selection
(the source's `default` branch returns `false`). -/
def validateInput : Option QRType → FormData → Bool
  | some .wifi, d => !(d.ssid == "")
  | some .email, d => !(d.email == "") && d.email.data.contains '@'
  | some .phone, d =>
      !(d.phone == "") && decide (10 ≤ (stripSeparators d.phone).length)
  | some .url, d => !(d.url == "")
  | some .text, d => !(d.text == "")
  | none, _ => false

/-- The app state: the selected type, the form record and the two displayed
strings (`qrUrl` is the rendered image's data URL, empty when nothing is
shown; `error` is the message banner, empty when no error is shown). -/
structure AppState where
  qrType : Option QRType
  formData : FormData
  qrUrl : String
  error : String
deriving DecidableEq, Repr

/-- The content-type `select` element's `onChange` handler: stores the chosen
type and resets the form record, the rendered output and the error banner. -/
def selectType (t : Option QRType) (_st : AppState) : AppState :=
  { qrType := t, formData := {}, qrUrl := "", error := "" }

/-- The submit handler `handleSubmit`.  The external renderer
`QRCode.toDataURL` is a parameter: `render content = some u` models a
successful render producing the data URL `u`, `none` models a thrown error.
With no type selected the handler returns immediately; a validation failure
sets the error banner and stops; otherwise the content is rendered and, on
success, `qrUrl` is replaced and the error cleared, while on failure only the
error banner is set. -/
def handleSubmit (render : String → Option String) (st : AppState) : AppState :=
  match st.qrType with
  | none => st
  | some t =>
      if validateInput (some t) st.formData = false then
        { st with error := "Please fill in all required fields correctly" }
      else
        match render (generateQRContent (some t) st.formData) with
        | some u => { st with qrUrl := u, error := "" }
        | none => { st with error := "Failed to generate QR code" }

/-- A renderer that always fails (models `QRCode.toDataURL` throwing). -/
def renderFail : String → Option String := fun _ => none

/-- The per-type acceptance rule as the specification words it, for comparison
with `validateInput`. -/
def validRule : Option QRType → FormData → Prop
  | some .wifi, d => ¬ d.ssid = ""
  | some .email, d => ¬ d.email = "" ∧ '@' ∈ d.email.data
  | some .phone, d => 10 ≤ (stripSeparators d.phone).length
  | some .url, d => ¬ d.url = ""
  | some .text, d => ¬ d.text = ""
  | none, _ => False

/-- The query component of the Email payload as the specification words it
(conditions on the raw subject/body fields), for comparison with
`generateQRContent`. -/
def emailQueryRule (d : FormData) : String :=
  if d.emailSubject = "" ∧ d.emailBody = "" then ""
  else
    "?" ++ (if ¬ d.emailSubject = "" then "subject=" ++ encodeURIComponent d.emailSubject else "") ++
      (if ¬ d.emailSubject = "" ∧ ¬ d.emailBody = "" then "&" else "") ++
      (if ¬ d.emailBody = "" then "body=" ++ encodeURIComponent d.emailBody else "")

/-! ### Lemmas about leading segments and occurrence counting -/

theorem isLeadOf_length_le {p l : List Char} (h : isLeadOf p l = true) :
    p.length ≤ l.length := by
  induction p generalizing l with
  | nil => simp
  | cons a as ih =>
    cases l with
    | nil => simp [isLeadOf] at h
    | cons b bs =>
      simp only [isLeadOf, Bool.and_eq_true] at h
      have := ih h.2
      simp only [List.length_cons]
      omega

theorem isLeadOf_append_of_le {p u : List Char} (t : List Char)
    (h : p.length ≤ u.length) : isLeadOf p (u ++ t) = isLeadOf p u := by
  induction p generalizing u with
  | nil => rfl
  | cons a as ih =>
    cases u with
    | nil => simp at h
    | cons b bs =>
      simp only [List.cons_append, isLeadOf]
      have h2 : isLeadOf as (bs ++ t) = isLeadOf as bs := ih (by simpa using h)
      exact congrArg (fun x => a == b && x) h2

theorem isLeadOf_straddle {p u t : List Char} (h : isLeadOf p (u ++ t) = true)
    (hlt : u.length < p.length) :
    isLeadOf (p.drop u.length) t = true ∧ isLeadOf u p = true := by
  induction u generalizing p with
  | nil => exact ⟨h, rfl⟩
  | cons b bs ih =>
    cases p with
    | nil => simp at hlt
    | cons a as =>
      simp only [List.cons_append, isLeadOf, Bool.and_eq_true, beq_iff_eq] at h
      obtain ⟨rfl, h2⟩ := h
      have := ih h2 (by simpa using hlt)
      simp only [List.length_cons, List.drop_succ_cons, isLeadOf, beq_self_eq_true,
        Bool.true_and]
      exact this

theorem mem_of_isLeadOf {p l : List Char} {c : Char} (h : isLeadOf p l = true)
    (hc : c ∈ p) : c ∈ l := by
  induction p generalizing l with
  | nil => simp at hc
  | cons a as ih =>
    cases l with
    | nil => simp [isLeadOf] at h
    | cons b bs =>
      simp only [isLeadOf, Bool.and_eq_true, beq_iff_eq] at h
      obtain ⟨rfl, h2⟩ := h
      rcases List.mem_cons.mp hc with rfl | hc
      · exact List.mem_cons_self _ _
      · exact List.mem_cons_of_mem _ (ih h2 hc)

theorem occCount_append_left (p u : List Char)
    (hL : ∀ k, k < u.length → u.length - k < p.length →
      isLeadOf (u.drop k) p = false) :
    ∀ t, occCount p (u ++ t) = occCount p u + occCount p t := by
  induction u with
  | nil => intro t; simp [occCount]
  | cons c u' ih =>
    intro t
    have hhead : isLeadOf p ((c :: u') ++ t) = isLeadOf p (c :: u') := by
      by_cases hlen : p.length ≤ (c :: u').length
      · exact isLeadOf_append_of_le t hlen
      · push_neg at hlen
        have hR : isLeadOf p (c :: u') = false := by
          cases hR : isLeadOf p (c :: u') with
          | false => rfl
          | true => exact absurd (isLeadOf_length_le hR) (by omega)
        have hLft : isLeadOf p ((c :: u') ++ t) = false := by
          cases hLft : isLeadOf p ((c :: u') ++ t) with
          | false => rfl
          | true =>
            have hs := (isLeadOf_straddle hLft hlen).2
            have h0 := hL 0 (by simp) (by simpa using hlen)
            simp only [List.drop_zero] at h0
            rw [h0] at hs
            exact absurd hs (by simp)
        rw [hR, hLft]
    have ih' := ih (fun k hk1 hk2 => by
      have := hL (k + 1) (by simpa using hk1) (by simpa using hk2)
      simpa using this) t
    rw [List.cons_append] at hhead
    simp only [List.cons_append, occCount, List.append_eq] at ih' ⊢
    simp only [hhead, ih']
    omega

theorem occCount_append_right (p t : List Char)
    (hstr : ∀ k, 0 < k → k < p.length → isLeadOf (p.drop k) t = false) :
    ∀ u, occCount p (u ++ t) = occCount p u + occCount p t := by
  intro u
  induction u with
  | nil => simp [occCount]
  | cons c u' ih =>
    have hhead : isLeadOf p ((c :: u') ++ t) = isLeadOf p (c :: u') := by
      by_cases hlen : p.length ≤ (c :: u').length
      · exact isLeadOf_append_of_le t hlen
      · push_neg at hlen
        have hR : isLeadOf p (c :: u') = false := by
          cases hR : isLeadOf p (c :: u') with
          | false => rfl
          | true => exact absurd (isLeadOf_length_le hR) (by omega)
        have hLft : isLeadOf p ((c :: u') ++ t) = false := by
          cases hLft : isLeadOf p ((c :: u') ++ t) with
          | false => rfl
          | true =>
            have hs := (isLeadOf_straddle hLft hlen).1
            have h0 := hstr (c :: u').length (by simp) hlen
            rw [h0] at hs
            exact absurd hs (by simp)
        rw [hR, hLft]
    rw [List.cons_append] at hhead
    simp only [List.cons_append, occCount, List.append_eq] at ih ⊢
    simp only [hhead, ih]
    omega

theorem occCount_sandwich (p lit1 lit2 tail a b : List Char)
    (h1 : ∀ k, k < lit1.length → lit1.length - k < p.length →
      isLeadOf (lit1.drop k) p = false)
    (h2 : ∀ k, 0 < k → k < p.length →
      isLeadOf (List.drop k p) (lit2 ++ (b ++ tail)) = false)
    (h3 : ∀ k, k < lit2.length → lit2.length - k < p.length →
      isLeadOf (lit2.drop k) p = false)
    (h4 : ∀ k, 0 < k → k < p.length → isLeadOf (List.drop k p) tail = false) :
    occCount p (lit1 ++ (a ++ (lit2 ++ (b ++ tail)))) =
      occCount p lit1 + occCount p a + occCount p lit2 + occCount p b +
        occCount p tail := by
  rw [occCount_append_left p lit1 h1, occCount_append_right p _ h2,
      occCount_append_left p lit2 h3, occCount_append_right p tail h4]
  omega

theorem occCount_two (p lit1 a q : List Char)
    (h1 : ∀ k, k < lit1.length → lit1.length - k < p.length →
      isLeadOf (lit1.drop k) p = false)
    (h2 : ∀ k, 0 < k → k < p.length → isLeadOf (List.drop k p) q = false) :
    occCount p (lit1 ++ (a ++ q)) =
      occCount p lit1 + occCount p a + occCount p q := by
  rw [occCount_append_left p lit1 h1, occCount_append_right p q h2]
  omega

theorem occCount_eq_zero {p l : List Char} {c : Char} (hc : c ∈ p)
    (hl : c ∉ l) : occCount p l = 0 := by
  induction l with
  | nil => rfl
  | cons b bs ih =>
    have hhead : isLeadOf p (b :: bs) = false := by
      cases hh : isLeadOf p (b :: bs) with
      | false => rfl
      | true => exact absurd (mem_of_isLeadOf hh hc) hl
    simp only [occCount, hhead, if_false]
    have : c ∉ bs := fun h => hl (List.mem_cons_of_mem _ h)
    simp [ih this]

/-! ### Lemmas about encodeURIComponent -/

theorem utf8Bytes_ne_nil (n : Nat) : utf8Bytes n ≠ [] := by
  unfold utf8Bytes
  split_ifs <;> simp

theorem uriEncodeChar_ne_nil (c : Char) : uriEncodeChar c ≠ [] := by
  unfold uriEncodeChar
  split_ifs with h
  · simp
  · cases hb : utf8Bytes c.toNat with
    | nil => exact absurd hb (utf8Bytes_ne_nil _)
    | cons b bs => simp [hb, percentByte]

theorem encodeURIComponent_eq_empty_iff (s : String) :
    encodeURIComponent s = "" ↔ s = "" := by
  constructor
  · intro h
    cases s with
    | mk l =>
      cases l with
      | nil => rfl
      | cons c cs =>
        have hd : uriEncodeChar c ++ ((cs.map uriEncodeChar).flatten) =
            ([] : List Char) := congrArg String.data h
        exact absurd (List.append_eq_nil.mp hd).1 (uriEncodeChar_ne_nil c)
  · rintro rfl
    rfl

theorem encodeURIComponent_empty : encodeURIComponent "" = "" := rfl

theorem hexDigitChar_ne_colon : ∀ n, n < 16 → ¬ hexDigitChar n = ':' := by
  decide

theorem char_toNat_lt (c : Char) : c.toNat < 1114112 := by
  have hv := c.valid
  rcases hv with hv | ⟨_, hv⟩ <;> · show c.val.toNat < 1114112; omega

theorem utf8Bytes_lt256 {n : Nat} (hn : n < 1114112) :
    ∀ b ∈ utf8Bytes n, b < 256 := by
  intro b hb
  unfold utf8Bytes at hb
  split_ifs at hb with h1 h2 h3
  · simp at hb; omega
  · simp at hb; rcases hb with rfl | rfl <;> omega
  · simp at hb; rcases hb with rfl | rfl | rfl <;> omega
  · simp at hb; rcases hb with rfl | rfl | rfl | rfl <;> omega

theorem colon_not_mem_uriEncodeChar (c : Char) : ':' ∉ uriEncodeChar c := by
  intro hmem
  unfold uriEncodeChar at hmem
  split_ifs at hmem with h
  · simp at hmem
    subst hmem
    exact absurd h (by decide)
  · simp only [List.mem_flatten] at hmem
    obtain ⟨l, hl, hcl⟩ := hmem
    simp only [List.mem_map] at hl
    obtain ⟨b, hb, rfl⟩ := hl
    have hb256 : b < 256 := utf8Bytes_lt256 (char_toNat_lt c) b hb
    simp only [percentByte, List.mem_cons] at hcl
    rcases hcl with h' | h' | h' | h'
    · exact absurd h' (by decide)
    · exact absurd h'.symm (hexDigitChar_ne_colon _ (by omega))
    · exact absurd h'.symm (hexDigitChar_ne_colon _ (by omega))
    · simp at h'

theorem colon_not_mem_encode (s : String) : ':' ∉ (encodeURIComponent s).data := by
  intro hmem
  have hm : ':' ∈ (s.data.map uriEncodeChar).flatten := hmem
  rw [List.mem_flatten] at hm
  obtain ⟨l, hl, hcl⟩ := hm
  rw [List.mem_map] at hl
  obtain ⟨c, _, rfl⟩ := hl
  exact colon_not_mem_uriEncodeChar c hcl

/-! ### Occurrence counts of the fixed literals in the encoded payloads -/

theorem data_empty : ("" : String).data = [] := rfl

theorem data_qmark : ("?" : String).data = ['?'] := rfl

theorem occ_wifi_core (ssid pw : String) (tail : List Char)
    (h4 : ∀ k, 0 < k → k < (("WIFI:" : String).data).length →
      isLeadOf (List.drop k (("WIFI:" : String).data)) tail = false)
    (h0 : occCount (("WIFI:" : String).data) tail = 0) :
    occCount (("WIFI:" : String).data)
      ((("WIFI:T:WPA;S:" : String).data) ++ (ssid.data ++
        (((";P:" : String).data) ++ (pw.data ++ tail)))) =
      1 + occCount (("WIFI:" : String).data) ssid.data +
        occCount (("WIFI:" : String).data) pw.data := by
  have hmid : ∀ k, 0 < k → k < (("WIFI:" : String).data).length →
      isLeadOf (List.drop k (("WIFI:" : String).data))
        (((";P:" : String).data) ++ (pw.data ++ tail)) = false := by
    intro k hk1 hk2
    have hk2' : k < 5 := hk2
    interval_cases k <;> rfl
  rw [occCount_sandwich _ _ _ _ _ _ (by decide) hmid (by decide) h4]
  have e1 : occCount (("WIFI:" : String).data)
      (("WIFI:T:WPA;S:" : String).data) = 1 := by decide
  have e2 : occCount (("WIFI:" : String).data) ((";P:" : String).data) = 0 := by
    decide
  rw [e1, e2, h0]
  omega

theorem occ_wifi (d : FormData) :
    occS "WIFI:" (generateQRContent (some .wifi) d) =
      1 + occS "WIFI:" d.ssid + occS "WIFI:" d.password := by
  unfold occS
  cases hh : d.hidden with
  | true =>
    have hdata : (generateQRContent (some .wifi) d).data =
        (("WIFI:T:WPA;S:" : String).data) ++ (d.ssid.data ++
          (((";P:" : String).data) ++ (d.password.data ++
            ((";H:" : String).data ++ ((("true" : String).data) ++
              ((";;" : String).data)))))) := by
      simp [generateQRContent, hh, String.data_append, List.append_assoc]
    rw [hdata]
    exact occ_wifi_core d.ssid d.password _
      (by intro k hk1 hk2; have hk2' : k < 5 := hk2; interval_cases k <;> rfl)
      (by decide)
  | false =>
    have hdata : (generateQRContent (some .wifi) d).data =
        (("WIFI:T:WPA;S:" : String).data) ++ (d.ssid.data ++
          (((";P:" : String).data) ++ (d.password.data ++
            ((";H:" : String).data ++ ((("false" : String).data) ++
              ((";;" : String).data)))))) := by
      simp [generateQRContent, hh, String.data_append, List.append_assoc]
    rw [hdata]
    exact occ_wifi_core d.ssid d.password _
      (by intro k hk1 hk2; have hk2' : k < 5 := hk2; interval_cases k <;> rfl)
      (by decide)

theorem occ_email_core (e q : String)
    (hq : q.data = [] ∨ ∃ r, q.data = '?' :: r)
    (hcolon : ':' ∉ q.data) :
    occCount (("mailto:" : String).data)
      ((("mailto:" : String).data) ++ (e.data ++ q.data)) =
      1 + occCount (("mailto:" : String).data) e.data := by
  have hmid : ∀ k, 0 < k → k < (("mailto:" : String).data).length →
      isLeadOf (List.drop k (("mailto:" : String).data)) q.data = false := by
    intro k hk1 hk2
    have hk2' : k < 7 := hk2
    rcases hq with hq | ⟨r, hq⟩ <;> rw [hq] <;> interval_cases k <;> rfl
  rw [occCount_two _ _ _ _ (by decide) hmid]
  have e1 : occCount (("mailto:" : String).data)
      (("mailto:" : String).data) = 1 := by decide
  have e0 : occCount (("mailto:" : String).data) q.data = 0 :=
    occCount_eq_zero (by decide) hcolon
  rw [e1, e0]
  omega

theorem occ_email (d : FormData) :
    occS "mailto:" (generateQRContent (some .email) d) =
      1 + occS "mailto:" d.email := by
  unfold occS
  by_cases hs : encodeURIComponent d.emailSubject = "" <;>
    by_cases hb : encodeURIComponent d.emailBody = ""
  · have hdata : (generateQRContent (some .email) d).data =
        (("mailto:" : String).data) ++ (d.email.data ++ (("" : String).data)) := by
      simp [generateQRContent, hs, hb, String.data_append, data_empty,
        List.append_assoc]
    rw [hdata]
    exact occ_email_core d.email "" (Or.inl rfl) (by decide)
  · have hdata : (generateQRContent (some .email) d).data =
        (("mailto:" : String).data) ++ (d.email.data ++
          (("?" ++ ("body=" ++ encodeURIComponent d.emailBody) : String).data)) := by
      simp [generateQRContent, hs, hb, String.data_append, data_empty,
        List.append_assoc]
    rw [hdata]
    refine occ_email_core d.email _
      (Or.inr ⟨("body=" : String).data ++ (encodeURIComponent d.emailBody).data,
        by simp [String.data_append, data_qmark]⟩) ?_
    · simp only [String.data_append, List.mem_append, not_or]
      exact ⟨by decide, by decide, colon_not_mem_encode _⟩
  · have hdata : (generateQRContent (some .email) d).data =
        (("mailto:" : String).data) ++ (d.email.data ++
          (("?" ++ ("subject=" ++ encodeURIComponent d.emailSubject) : String).data)) := by
      simp [generateQRContent, hs, hb, String.data_append, data_empty,
        List.append_assoc]
    rw [hdata]
    refine occ_email_core d.email _
      (Or.inr ⟨("subject=" : String).data ++ (encodeURIComponent d.emailSubject).data,
        by simp [String.data_append, data_qmark]⟩) ?_
    · simp only [String.data_append, List.mem_append, not_or]
      exact ⟨by decide, by decide, colon_not_mem_encode _⟩
  · have hdata : (generateQRContent (some .email) d).data =
        (("mailto:" : String).data) ++ (d.email.data ++
          (("?" ++ ("subject=" ++ (encodeURIComponent d.emailSubject ++
            ("&" ++ ("body=" ++ encodeURIComponent d.emailBody)))) : String).data)) := by
      simp [generateQRContent, hs, hb, String.data_append, data_empty,
        List.append_assoc]
    rw [hdata]
    refine occ_email_core d.email _
      (Or.inr ⟨("subject=" : String).data ++ ((encodeURIComponent d.emailSubject).data ++
          (("&" : String).data ++ (("body=" : String).data ++
            (encodeURIComponent d.emailBody).data))),
        by simp [String.data_append, data_qmark]⟩) ?_
    · simp only [String.data_append, List.mem_append, not_or]
      exact ⟨by decide, by decide, colon_not_mem_encode _, by decide, by decide,
        colon_not_mem_encode _⟩

theorem occ_phone (d : FormData) :
    occS "tel:" (generateQRContent (some .phone) d) =
      1 + occS "tel:" (stripJsWs d.phone) := by
  unfold occS
  have hdata : (generateQRContent (some .phone) d).data =
      ("tel:" : String).data ++ (stripJsWs d.phone).data := by
    simp [generateQRContent, String.data_append]
  rw [hdata, occCount_append_left _ _ (by decide)]
  have e1 : occCount (("tel:" : String).data) (("tel:" : String).data) = 1 := by
    decide
  rw [e1]

theorem occ_url_https (u : String) :
    occCount (("https://" : String).data)
      ((("https://" : String).data) ++ u.data) =
      1 + occCount (("https://" : String).data) u.data := by
  rw [occCount_append_left _ _ (by decide)]
  have e1 : occCount (("https://" : String).data)
      (("https://" : String).data) = 1 := by decide
  rw [e1]

theorem occ_url_http (u : String) :
    occCount (("http://" : String).data)
      ((("https://" : String).data) ++ u.data) =
      occCount (("http://" : String).data) u.data := by
  rw [occCount_append_left _ _ (by decide)]
  have e1 : occCount (("http://" : String).data)
      (("https://" : String).data) = 0 := by decide
  rw [e1]
  exact Nat.zero_add _

/-! ### Claim theorems -/

/-- Claim C1: `validateInput` accepts exactly under the per-type rule (Wifi
iff `ssid` non-empty; Email iff `email` non-empty and containing `@`; Phone
iff the phone with whitespace, hyphens and parentheses removed has length at
least 10; Url iff `url` non-empty; Text iff `text` non-empty; false for an
unset type), and every type rejects the entirely empty record. -/
theorem c1_validator_rules :
    (∀ (t : Option QRType) (d : FormData),
      validateInput t d = true ↔ validRule t d) ∧
    (∀ t : Option QRType, validateInput t {} = false) := by
  constructor
  · intro t d
    match t with
    | none => simp [validateInput, validRule]
    | some .wifi => simp [validateInput, validRule]
    | some .email =>
      simp [validateInput, validRule, List.contains_iff_exists_mem_beq]
    | some .phone =>
      simp only [validateInput, validRule, Bool.and_eq_true, Bool.not_eq_true',
        beq_eq_false_iff_ne, ne_eq, decide_eq_true_eq]
      constructor
      · rintro ⟨-, h⟩
        exact h
      · intro h
        refine ⟨?_, h⟩
        intro he
        rw [he] at h
        exact absurd h (by decide)
    | some .url => simp [validateInput, validRule]
    | some .text => simp [validateInput, validRule]
  · intro t
    match t with
    | none => rfl
    | some ty => cases ty <;> rfl

/-- Claim C2: the Wifi payload is the literal template
`WIFI:T:WPA;S:<ssid>;P:<password>;H:<true|false>;;` with ssid and password
substituted verbatim (no escaping, as the concrete example with `;` and `,`
shows) and absent fields defaulting to empty / false. -/
theorem c2_wifi_encoding :
    (∀ d : FormData,
      generateQRContent (some .wifi) d =
        "WIFI:T:WPA;S:" ++ d.ssid ++ ";P:" ++ d.password ++ ";H:" ++
          (if d.hidden then "true" else "false") ++ ";;") ∧
    generateQRContent (some .wifi)
        { ssid := "Home", password := "secret", hidden := true } =
      "WIFI:T:WPA;S:Home;P:secret;H:true;;" ∧
    generateQRContent (some .wifi) { ssid := "a;b,c" } =
      "WIFI:T:WPA;S:a;b,c;P:;H:false;;" :=
  ⟨fun _ => rfl, by decide, by decide⟩

/-- Claim C3: the Email payload is `mailto:<email>` with the email inserted
verbatim, followed by a query component exactly as the spec words it
(`emailQueryRule`): nothing when subject and body are both empty, otherwise
`?` then `subject=<enc>` for a non-empty subject and `body=<enc>` for a
non-empty body joined by `&`, with `?body=...` alone when the subject is
absent. -/
theorem c3_email_encoding :
    (∀ d : FormData,
      generateQRContent (some .email) d =
        "mailto:" ++ d.email ++ emailQueryRule d) ∧
    generateQRContent (some .email)
        { email := "a@b.com", emailSubject := "Hi" } = "mailto:a@b.com?subject=Hi" ∧
    generateQRContent (some .email) { email := "a@b.com" } = "mailto:a@b.com" := by
  refine ⟨fun d => ?_, by decide, by decide⟩
  by_cases h1 : d.emailSubject = "" <;> by_cases h2 : d.emailBody = ""
  · have e1 : encodeURIComponent d.emailSubject = "" :=
      (encodeURIComponent_eq_empty_iff _).mpr h1
    have e2 : encodeURIComponent d.emailBody = "" :=
      (encodeURIComponent_eq_empty_iff _).mpr h2
    simp [generateQRContent, emailQueryRule, e1, e2, h1, h2,
      encodeURIComponent_empty]
  · have e1 : encodeURIComponent d.emailSubject = "" :=
      (encodeURIComponent_eq_empty_iff _).mpr h1
    have e2 : ¬ encodeURIComponent d.emailBody = "" :=
      fun h => h2 ((encodeURIComponent_eq_empty_iff _).mp h)
    apply String.ext
    simp [generateQRContent, emailQueryRule, e1, e2, h1, h2,
      encodeURIComponent_empty, String.data_append, data_empty,
      List.append_assoc]
  · have e1 : ¬ encodeURIComponent d.emailSubject = "" :=
      fun h => h1 ((encodeURIComponent_eq_empty_iff _).mp h)
    have e2 : encodeURIComponent d.emailBody = "" :=
      (encodeURIComponent_eq_empty_iff _).mpr h2
    apply String.ext
    simp [generateQRContent, emailQueryRule, e1, e2, h1, h2,
      encodeURIComponent_empty, String.data_append, data_empty,
      List.append_assoc]
  · have e1 : ¬ encodeURIComponent d.emailSubject = "" :=
      fun h => h1 ((encodeURIComponent_eq_empty_iff _).mp h)
    have e2 : ¬ encodeURIComponent d.emailBody = "" :=
      fun h => h2 ((encodeURIComponent_eq_empty_iff _).mp h)
    apply String.ext
    simp [generateQRContent, emailQueryRule, e1, e2, h1, h2,
      encodeURIComponent_empty, String.data_append, data_empty,
      List.append_assoc]

/-- Claim C5: the Phone payload is `tel:` followed by the phone value with
exactly the whitespace characters removed; hyphens and parentheses are not
whitespace and pass through verbatim (even though the validator also strips
them when counting), as the spec's two examples confirm. -/
theorem c5_phone_encoding :
    (∀ d : FormData,
      generateQRContent (some .phone) d =
        "tel:" ++ ⟨d.phone.data.filter (fun c => !(isJsWhitespace c))⟩) ∧
    isJsWhitespace '-' = false ∧ isJsWhitespace '(' = false ∧
    isJsWhitespace ')' = false ∧
    generateQRContent (some .phone) { phone := "123 456 7890" } =
      "tel:1234567890" ∧
    validateInput (some .phone) { phone := "123-456-789" } = false :=
  ⟨fun _ => rfl, by decide, by decide, by decide, by decide, by decide⟩

/-- Claim C8: selecting a content type resets the form record to the empty
default, clears the rendered output and the error banner, and stores the new
type; consequently neither the validator nor the encoder can see any field
value entered under the previous type. -/
theorem c8_type_switch_clears :
    ∀ (t : Option QRType) (st : AppState),
      (selectType t st).formData = {} ∧ (selectType t st).qrUrl = "" ∧
      (selectType t st).error = "" ∧ (selectType t st).qrType = t ∧
      (∀ u : Option QRType, validateInput u (selectType t st).formData =
        validateInput u ({} : FormData)) ∧
      (∀ u : Option QRType, generateQRContent u (selectType t st).formData =
        generateQRContent u ({} : FormData)) :=
  fun _ _ => ⟨rfl, rfl, rfl, rfl, fun _ => rfl, fun _ => rfl⟩

/-- Claim C4: the Url payload leaves an already `http://`- or
`https://`-prefixed URL unchanged, prepends `https://` otherwise, and maps an
empty url to the empty string. -/
theorem c4_url_encoding :
    (∀ d : FormData,
      ((jsStartsWith d.url "http://" = true ∨ jsStartsWith d.url "https://" = true) →
        generateQRContent (some .url) d = d.url) ∧
      (d.url = "" → generateQRContent (some .url) d = "") ∧
      (¬ d.url = "" → jsStartsWith d.url "http://" = false →
        jsStartsWith d.url "https://" = false →
        generateQRContent (some .url) d = "https://" ++ d.url)) ∧
    generateQRContent (some .url) { url := "example.com" } = "https://example.com" ∧
    generateQRContent (some .url) { url := "http://example.com" } =
      "http://example.com" := by
  refine ⟨fun d => ⟨?_, ?_, ?_⟩, by decide, by decide⟩
  · intro h
    rcases h with h | h <;> simp [generateQRContent, h]
  · intro h
    simp [generateQRContent, h]
  · intro h1 h2 h3
    simp [generateQRContent, h1, h2, h3]

/-- Witness for C4 at concrete inputs: a prefixed URL is unchanged, an empty
url encodes to the empty string, and a bare domain gets `https://`. -/
theorem c4_url_encoding_witness :
    generateQRContent (some .url) { url := "http://x" } = "http://x" ∧
    generateQRContent (some .url) { url := "" } = "" ∧
    generateQRContent (some .url) { url := "x.io" } = "https://x.io" :=
  ⟨(c4_url_encoding.1 { url := "http://x" }).1 (Or.inl (by decide)),
    (c4_url_encoding.1 { url := "" }).2.1 rfl,
    (c4_url_encoding.1 { url := "x.io" }).2.2 (by decide) (by decide) (by decide)⟩

/-- Claim C10: for every content type and every record that `validateInput`
accepts, `generateQRContent` produces a non-empty string, so the renderer's
empty-content failure is unreachable for validated input. -/
theorem c10_validated_nonempty :
    ∀ (t : Option QRType) (d : FormData),
      validateInput t d = true → ¬ generateQRContent t d = "" := by
  intro t d hv hE
  match t with
  | none => simp [validateInput] at hv
  | some .wifi =>
    have h := occ_wifi d
    rw [hE] at h
    simp [occS, occCount] at h
    omega
  | some .email =>
    have h := occ_email d
    rw [hE] at h
    simp [occS, occCount] at h
    omega
  | some .phone =>
    have h := occ_phone d
    rw [hE] at h
    simp [occS, occCount] at h
    omega
  | some .url =>
    simp only [validateInput, Bool.not_eq_true', beq_eq_false_iff_ne, ne_eq] at hv
    simp only [generateQRContent] at hE
    split_ifs at hE with hc
    · exact absurd (List.append_eq_nil.mp (congrArg String.data hE)).1 (by decide)
    · exact hv hE
  | some .text =>
    simp only [validateInput, Bool.not_eq_true', beq_eq_false_iff_ne, ne_eq] at hv
    exact hv hE

/-- Witness for C10 at a concrete accepted input. -/
theorem c10_validated_nonempty_witness :
    ¬ generateQRContent (some .text) { text := "hi" } = "" :=
  c10_validated_nonempty (some .text) { text := "hi" } (by decide)

/-- Claim C6 counterexample: the record with `ssid := "WIFI:x"` is accepted
by the validator, yet the encoded Wifi payload contains the fixed literal
`WIFI:` twice, not exactly once as the claim states. -/
theorem c6_counterexample :
    validateInput (some .wifi) { ssid := "WIFI:x" } = true ∧
    occS "WIFI:" (generateQRContent (some .wifi) { ssid := "WIFI:x" }) = 2 ∧
    ¬ occS "WIFI:" (generateQRContent (some .wifi) { ssid := "WIFI:x" }) = 1 :=
  ⟨by decide, by decide, by decide⟩

/-- Claim C6 as amended: for accepted Wifi/Email/Phone/Url input whose
relevant field values do not themselves contain the fixed literal (for Phone,
whose whitespace-stripped value does not), the encoded payload contains the
literal (`WIFI:`, `mailto:`, `tel:`, `https://` with no `http://`) exactly
once; and an already-prefixed URL is returned unchanged, so re-encoding never
duplicates its prefix. -/
theorem c6_amended :
    (∀ d : FormData, validateInput (some .wifi) d = true →
      occS "WIFI:" d.ssid = 0 → occS "WIFI:" d.password = 0 →
      occS "WIFI:" (generateQRContent (some .wifi) d) = 1) ∧
    (∀ d : FormData, validateInput (some .email) d = true →
      occS "mailto:" d.email = 0 →
      occS "mailto:" (generateQRContent (some .email) d) = 1) ∧
    (∀ d : FormData, validateInput (some .phone) d = true →
      occS "tel:" (stripJsWs d.phone) = 0 →
      occS "tel:" (generateQRContent (some .phone) d) = 1) ∧
    (∀ d : FormData, validateInput (some .url) d = true →
      jsStartsWith d.url "http://" = false → jsStartsWith d.url "https://" = false →
      occS "https://" d.url = 0 → occS "http://" d.url = 0 →
      occS "https://" (generateQRContent (some .url) d) = 1 ∧
      occS "http://" (generateQRContent (some .url) d) = 0) ∧
    (∀ d : FormData,
      (jsStartsWith d.url "http://" = true ∨ jsStartsWith d.url "https://" = true) →
      generateQRContent (some .url) d = d.url) := by
  refine ⟨?_, ?_, ?_, ?_, ?_⟩
  · intro d _ h1 h2
    rw [occ_wifi d, h1, h2]
  · intro d _ h1
    rw [occ_email d, h1]
  · intro d _ h1
    rw [occ_phone d, h1]
  · intro d hv h1 h2 h3 h4
    have hv' : ¬ d.url = "" := by
      simpa [validateInput] using hv
    have hgen : generateQRContent (some .url) d = "https://" ++ d.url := by
      simp [generateQRContent, hv', h1, h2]
    constructor
    · show occS "https://" _ = 1
      unfold occS
      rw [hgen, String.data_append, occ_url_https]
      have h3' : occCount (("https://" : String).data) d.url.data = 0 := h3
      rw [h3']
    · show occS "http://" _ = 0
      unfold occS
      rw [hgen, String.data_append, occ_url_http]
      exact h4
  · intro d h
    rcases h with h | h <;> simp [generateQRContent, h]

/-- Witness for the amended C6 at concrete accepted inputs. -/
theorem c6_amended_witness :
    occS "WIFI:" (generateQRContent (some .wifi)
      { ssid := "Home", password := "pw" }) = 1 ∧
    occS "mailto:" (generateQRContent (some .email)
      { email := "a@b.com", emailSubject := "Hi" }) = 1 ∧
    occS "tel:" (generateQRContent (some .phone) { phone := "123 456 7890" }) = 1 ∧
    (occS "https://" (generateQRContent (some .url) { url := "example.com" }) = 1 ∧
      occS "http://" (generateQRContent (some .url) { url := "example.com" }) = 0) ∧
    generateQRContent (some .url) { url := "http://example.com" } =
      "http://example.com" :=
  ⟨c6_amended.1 _ (by decide) (by decide) (by decide),
    c6_amended.2.1 _ (by decide) (by decide),
    c6_amended.2.2.1 _ (by decide) (by decide),
    c6_amended.2.2.2.1 _ (by decide) (by decide) (by decide) (by decide) (by decide),
    c6_amended.2.2.2.2 _ (Or.inl (by decide))⟩

/-- Claim C7 counterexample: starting from a state whose displayed output is
`OLD`, a submit whose render fails leaves `OLD` displayed next to the error
message — the prior output is neither cleared before the attempt nor after the
failure, contradicting the claim. -/
theorem c7_counterexample :
    (handleSubmit renderFail
      { qrType := some .text, formData := { text := "hi" }, qrUrl := "OLD",
        error := "" }).qrUrl = "OLD" ∧
    (handleSubmit renderFail
      { qrType := some .text, formData := { text := "hi" }, qrUrl := "OLD",
        error := "" }).error = "Failed to generate QR code" :=
  ⟨rfl, rfl⟩

/-- Claim C7 as amended: the displayed output is replaced only on success;
the handler does not clear the previous output before or during a failed
attempt — on a render failure it sets the error banner `Failed to generate QR
code` and leaves every other state field (including the previously rendered
output) unchanged. -/
theorem c7_amended :
    ∀ (render : String → Option String) (st : AppState) (t : QRType),
      st.qrType = some t →
      validateInput (some t) st.formData = true →
      (render (generateQRContent (some t) st.formData) = none →
        handleSubmit render st =
          { st with error := "Failed to generate QR code" }) ∧
      (∀ u, render (generateQRContent (some t) st.formData) = some u →
        handleSubmit render st = { st with qrUrl := u, error := "" }) := by
  intro render st t ht hv
  constructor
  · intro hr
    simp [handleSubmit, ht, hv, hr]
  · intro u hr
    simp [handleSubmit, ht, hv, hr]

/-- Witness for the amended C7: a failing render on a concrete valid state
keeps the old output and sets the error banner. -/
theorem c7_amended_witness :
    handleSubmit renderFail
      { qrType := some .text, formData := { text := "hi" }, qrUrl := "OLD",
        error := "" } =
      { qrType := some .text, formData := { text := "hi" }, qrUrl := "OLD",
        error := "Failed to generate QR code" } :=
  (c7_amended renderFail
    { qrType := some .text, formData := { text := "hi" }, qrUrl := "OLD",
      error := "" } .text rfl (by decide)).1 rfl

/-- Claim C9 counterexample: the message stored on a validation failure is
`Please fill in all required fields correctly`, without the trailing period
the claim quotes. -/
theorem c9_counterexample :
    (handleSubmit renderFail
      { qrType := some .wifi, formData := {}, qrUrl := "KEEP", error := "" }).error =
      "Please fill in all required fields correctly" ∧
    ¬ (handleSubmit renderFail
      { qrType := some .wifi, formData := {}, qrUrl := "KEEP", error := "" }).error =
      "Please fill in all required fields correctly." :=
  ⟨rfl, by decide⟩

/-- Claim C9 as amended: when the validator rejects the current type and
fields, the attempt stops with the message `Please fill in all required
fields correctly` (no trailing period), every other state field — including
the displayed output — is unchanged, and the result does not depend on the
renderer at all (neither the encoder's output nor the renderer is consumed). -/
theorem c9_amended :
    ∀ (render : String → Option String) (st : AppState) (t : QRType),
      st.qrType = some t →
      validateInput (some t) st.formData = false →
      handleSubmit render st =
        { st with error := "Please fill in all required fields correctly" } ∧
      (∀ render2 : String → Option String,
        handleSubmit render2 st = handleSubmit render st) := by
  intro render st t ht hv
  have h1 : ∀ r : String → Option String,
      handleSubmit r st =
        { st with error := "Please fill in all required fields correctly" } := by
    intro r
    simp [handleSubmit, ht, hv]
  exact ⟨h1 render, fun r2 => (h1 r2).trans (h1 render).symm⟩

/-- Witness for the amended C9 at a concrete rejected state: the error is
set, the previous output `KEEP` is untouched. -/
theorem c9_amended_witness :
    handleSubmit renderFail
      { qrType := some .wifi, formData := {}, qrUrl := "KEEP", error := "" } =
      { qrType := some .wifi, formData := {}, qrUrl := "KEEP",
        error := "Please fill in all required fields correctly" } :=
  (c9_amended renderFail
    { qrType := some .wifi, formData := {}, qrUrl := "KEEP", error := "" }
    .wifi rfl (by decide)).1

end QRApp
